import Mathlib

/-!
Verification development for the ResearchFlow backend core.

This file gives a shallow embedding of the backend's document merge engine
(`apply_plan_update` in nodes.py), the contract-parsing helpers
(`parse_json_output` in nodes.py, `get_clean_content` in main.py), the
version-bump logic of the `update_plan` endpoint (main.py), and the research
orchestration action dispatch of `conversation_agent` (nodes.py), together
with theorems settling the frozen claims about them.

JSON values are modelled by an inductive `Json` type; Python dicts are
insertion-ordered association lists with unique keys. Python `None` and JSON
`null` are both modelled as `Json.null`. Numbers are modelled as integers
(the flows under verification only ever carry integer literals). In-place
mutation is modelled by explicit state passing; an uncaught Python exception
is modelled by `Except.error` carrying the partially-mutated state.
-/

/-- JSON values / Python objects as used by the backend. -/
inductive Json where
  | null
  | bool (b : Bool)
  | num (n : Int)
  | str (s : String)
  | arr (xs : List Json)
  | obj (kvs : List (String × Json))

/-- The opening-brace character, by code point. -/
def lbrace : Char := Char.ofNat 123

/-- The closing-brace character, by code point. -/
def rbrace : Char := Char.ofNat 125

/- Python dict operations on insertion-ordered association lists. -/

/-- Python `d.get(k)` / `d[k]` lookup (first binding). -/
def objGet (kvs : List (String × Json)) (k : String) : Option Json :=
  (kvs.find? (fun kv => kv.1 == k)).map (fun kv => kv.2)

/-- Python `k in d`. -/
def objHasKey (kvs : List (String × Json)) (k : String) : Bool :=
  kvs.any (fun kv => kv.1 == k)

/-- Python `d[k] = v`: overwrite in place if the key exists, else append. -/
def objSet : List (String × Json) → String → Json → List (String × Json)
  | [], k, v => [(k, v)]
  | (k', v') :: rest, k, v =>
    if k' == k then (k, v) :: rest else (k', v') :: objSet rest k v

/-- Python `del d[k]` (removes the binding for `k`). -/
def objDel : List (String × Json) → String → List (String × Json)
  | [], _ => []
  | (k', v') :: rest, k =>
    if k' == k then rest else (k', v') :: objDel rest k

/-- Python `d.update(other)`: set each binding of `other` into `d` in order. -/
def objUpdate (base : List (String × Json)) : List (String × Json) → List (String × Json)
  | [] => base
  | (k, v) :: rest => objUpdate (objSet base k v) rest

/-- Python truthiness of a JSON value (`bool(x)`). -/
def pyTruthy : Json → Bool
  | .null => false
  | .bool b => b
  | .num n => n != 0
  | .str s => s != ""
  | .arr xs => !xs.isEmpty
  | .obj kvs => !kvs.isEmpty

/-- Truthiness of an optional value: Python `None` (missing) is falsy. -/
def optTruthy : Option Json → Bool
  | none => false
  | some v => pyTruthy v

/- Python string helpers, computed over character lists so that concrete
instances reduce in the kernel. -/

/-- Whitespace recognised by Python `str.strip()` (ASCII subset). -/
def isPyWs (c : Char) : Bool :=
  c == ' ' || c == Char.ofNat 9 || c == Char.ofNat 10 || c == Char.ofNat 13
    || c == Char.ofNat 11 || c == Char.ofNat 12

/-- Drop leading whitespace from a character list. -/
def lcDropWs : List Char → List Char
  | [] => []
  | c :: cs => if isPyWs c then lcDropWs cs else c :: cs

/-- Python `s.strip()`. -/
def pyStrip (s : String) : String :=
  String.mk ((lcDropWs (lcDropWs s.toList.reverse).reverse))

/-- Python `s.lower()` (ASCII). -/
def pyLower (s : String) : String :=
  String.mk (s.toList.map Char.toLower)

/-- Python `s.replace("_", " ")`. -/
def pyReplaceUnd (s : String) : String :=
  String.mk (s.toList.map (fun c => if c == '_' then ' ' else c))

/-- Helper for `pyTitle`: the flag records whether the previous character was
alphabetic. -/
def pyTitleAux : Bool → List Char → List Char
  | _, [] => []
  | prevAlpha, c :: cs =>
    let isA := c.isAlpha
    let c' := if isA then (if prevAlpha then c.toLower else c.toUpper) else c
    c' :: pyTitleAux isA cs

/-- Python `s.title()` (ASCII): uppercase each letter that follows a
non-letter, lowercase all other letters. -/
def pyTitle (s : String) : String :=
  String.mk (pyTitleAux false s.toList)

/-- Python `s.split(sep)` for a single-character separator. -/
def splitOnChar (sep : Char) : List Char → List (List Char)
  | [] => [[]]
  | c :: cs =>
    if c == sep then [] :: splitOnChar sep cs
    else
      match splitOnChar sep cs with
      | h :: t => (c :: h) :: t
      | [] => [[c]]

/-- Python `s.split(".")`. -/
def pySplitDot (s : String) : List String :=
  (splitOnChar '.' s.toList).map String.mk

/-- Python `s.find(c)` for a single character (`none` for -1). -/
def idxOfChar (c : Char) : List Char → Option Nat
  | [] => none
  | x :: xs =>
    if x == c then some 0
    else (idxOfChar c xs).map (fun i => i + 1)

/-- Python `s.rfind(c)` for a single character (`none` for -1). -/
def lastIdxOfChar (c : Char) (cs : List Char) : Option Nat :=
  (idxOfChar c cs.reverse).map (fun j => cs.length - 1 - j)

/-- Parse an optionally signed decimal integer (the digits of Python
`int(str)` after stripping). -/
def parseIntDigits : List Char → Option Nat
  | [] => none
  | c :: cs =>
    if c.isDigit then
      match cs with
      | [] => some (c.toNat - 48)
      | _ => (parseIntDigits cs).map (fun v => (c.toNat - 48) * 10 ^ cs.length + v)
    else none

/-- Python `int(s)` on a string: strip whitespace, optional sign, digits. -/
def pyIntOfStr (s : String) : Option Int :=
  match (pyStrip s).toList with
  | '-' :: rest => (parseIntDigits rest).map (fun v => -(v : Int))
  | '+' :: rest => (parseIntDigits rest).map (fun v => (v : Int))
  | cs => (parseIntDigits cs).map (fun v => (v : Int))

/-- Python `int(x)` on a JSON value: succeeds on bools, integers and integer
strings; raises (`none`) on anything else. -/
def pyInt : Json → Option Int
  | .bool b => some (if b then 1 else 0)
  | .num n => some n
  | .str s => pyIntOfStr s
  | _ => none

/- A JSON parser modelling Python `json.loads` (strict mode; integer
numbers only — the flows under verification never carry float literals). -/

/-- JSON whitespace skipping (space, tab, newline, carriage return). -/
def skipWs : List Char → List Char
  | [] => []
  | c :: cs =>
    if c == ' ' || c == Char.ofNat 9 || c == Char.ofNat 10 || c == Char.ofNat 13 then
      skipWs cs
    else c :: cs

/-- Hexadecimal digit value. -/
def hexDigitVal (c : Char) : Option Nat :=
  if c.isDigit then some (c.toNat - 48)
  else if 'a' ≤ c && c ≤ 'f' then some (c.toNat - 87)
  else if 'A' ≤ c && c ≤ 'F' then some (c.toNat - 55)
  else none

/-- Parse the body of a JSON string after the opening quote; the accumulator
holds the characters read so far, reversed. -/
def parseStrBody : List Char → List Char → Option (String × List Char)
  | [], _ => none
  | c :: rest, acc =>
    if c == '"' then some (String.mk acc.reverse, rest)
    else if c == '\\' then
      match rest with
      | [] => none
      | e :: rest2 =>
        if e == '"' then parseStrBody rest2 ('"' :: acc)
        else if e == '\\' then parseStrBody rest2 ('\\' :: acc)
        else if e == '/' then parseStrBody rest2 ('/' :: acc)
        else if e == 'b' then parseStrBody rest2 (Char.ofNat 8 :: acc)
        else if e == 'f' then parseStrBody rest2 (Char.ofNat 12 :: acc)
        else if e == 'n' then parseStrBody rest2 (Char.ofNat 10 :: acc)
        else if e == 'r' then parseStrBody rest2 (Char.ofNat 13 :: acc)
        else if e == 't' then parseStrBody rest2 (Char.ofNat 9 :: acc)
        else if e == 'u' then
          match rest2 with
          | h1 :: h2 :: h3 :: h4 :: rest3 =>
            match hexDigitVal h1, hexDigitVal h2, hexDigitVal h3, hexDigitVal h4 with
            | some a, some b, some c2, some d =>
              parseStrBody rest3 (Char.ofNat (a * 4096 + b * 256 + c2 * 16 + d) :: acc)
            | _, _, _, _ => none
          | _ => none
        else none
    else if c.toNat < 32 then none
    else parseStrBody rest (c :: acc)

/-- Read a maximal run of decimal digits. -/
def parseDigitRun : List Char → Nat → Nat × List Char
  | [], acc => (acc, [])
  | c :: cs, acc =>
    if c.isDigit then parseDigitRun cs (acc * 10 + (c.toNat - 48))
    else (acc, c :: cs)

/-- Does the remaining input start a fractional or exponent part? (Such
numbers are floats; this model rejects them.) -/
def floatNext : List Char → Bool
  | [] => false
  | c :: _ => c == '.' || c == 'e' || c == 'E'

/-- Parse a JSON integer literal. -/
def parseNum (cs : List Char) : Option (Json × List Char) :=
  let signSplit : Bool × List Char :=
    match cs with
    | c :: r => if c == '-' then (true, r) else (false, cs)
    | [] => (false, cs)
  let neg := signSplit.1
  match signSplit.2 with
  | c :: tl =>
    if c == '0' then
      if floatNext tl then none else some (.num 0, tl)
    else if c.isDigit then
      let run := parseDigitRun tl (c.toNat - 48)
      if floatNext run.2 then none
      else some (.num (if neg then -(run.1 : Int) else (run.1 : Int)), run.2)
    else none
  | [] => none

mutual

/-- Parse one JSON value; fuel bounds the recursion. -/
def parseVal : Nat → List Char → Option (Json × List Char)
  | 0, _ => none
  | fuel + 1, cs =>
    match skipWs cs with
    | [] => none
    | c :: rest =>
      if c == 'n' then
        match rest with
        | 'u' :: 'l' :: 'l' :: r => some (.null, r)
        | _ => none
      else if c == 't' then
        match rest with
        | 'r' :: 'u' :: 'e' :: r => some (.bool true, r)
        | _ => none
      else if c == 'f' then
        match rest with
        | 'a' :: 'l' :: 's' :: 'e' :: r => some (.bool false, r)
        | _ => none
      else if c == '"' then
        (parseStrBody rest []).map (fun p => (.str p.1, p.2))
      else if c == '[' then
        match skipWs rest with
        | c2 :: r2 => if c2 == ']' then some (.arr [], r2) else parseArrElems fuel rest []
        | [] => none
      else if c == lbrace then
        match skipWs rest with
        | c2 :: r2 => if c2 == rbrace then some (.obj [], r2) else parseObjElems fuel rest []
        | [] => none
      else parseNum (c :: rest)

/-- Parse comma-separated array elements up to the closing bracket. -/
def parseArrElems : Nat → List Char → List Json → Option (Json × List Char)
  | 0, _, _ => none
  | fuel + 1, cs, acc =>
    match parseVal fuel cs with
    | none => none
    | some (v, rest) =>
      match skipWs rest with
      | c :: rest2 =>
        if c == ',' then parseArrElems fuel rest2 (acc ++ [v])
        else if c == ']' then some (.arr (acc ++ [v]), rest2)
        else none
      | [] => none

/-- Parse comma-separated object members up to the closing brace; later
duplicate keys overwrite earlier ones as in Python. -/
def parseObjElems : Nat → List Char → List (String × Json) → Option (Json × List Char)
  | 0, _, _ => none
  | fuel + 1, cs, acc =>
    match skipWs cs with
    | c :: rest =>
      if c == '"' then
        match parseStrBody rest [] with
        | none => none
        | some (k, rest2) =>
          match skipWs rest2 with
          | c2 :: rest3 =>
            if c2 == ':' then
              match parseVal fuel rest3 with
              | none => none
              | some (v, rest4) =>
                match skipWs rest4 with
                | c3 :: rest5 =>
                  if c3 == ',' then parseObjElems fuel rest5 (objSet acc k v)
                  else if c3 == rbrace then some (.obj (objSet acc k v), rest5)
                  else none
                | [] => none
            else none
          | _ => none
      else none
    | [] => none

end

/-- Python `json.loads`: parse one value and require only whitespace after
it (`none` models a raised `JSONDecodeError`). -/
def jsonLoads (s : String) : Option Json :=
  let cs := s.toList
  match parseVal (2 * cs.length + 8) cs with
  | some (v, rest) => if (skipWs rest).isEmpty then some v else none
  | none => none

/-- nodes.py `parse_json_output`: parse the whole text, else the substring
from the first opening brace to the last closing brace, else `None`. -/
def parse_json_output (text : String) : Option Json :=
  match jsonLoads text with
  | some v => some v
  | none =>
    let cs := text.toList
    match idxOfChar lbrace cs, lastIdxOfChar rbrace cs with
    | some start, some stop => jsonLoads (String.mk ((cs.drop start).take (stop + 1 - start)))
    | _, _ => none

/-- main.py `get_clean_content`, inner slice `msg_content[start:end+1]`. -/
def braceSlice (s : String) : Option String :=
  let cs := s.toList
  match idxOfChar lbrace cs, lastIdxOfChar rbrace cs with
  | some start, some stop => some (String.mk ((cs.drop start).take (stop + 1 - start)))
  | _, _ => none

/-- Extract the `reply` field when a parsed value is a dict that has one. -/
def replyOf (j : Json) : Option Json :=
  match j with
  | .obj kvs => if objHasKey kvs "reply" then some ((objGet kvs "reply").getD .null) else none
  | _ => none

/-- The extraction stage of main.py `get_clean_content`: whole-text parse
with a `reply` field, else first-brace/last-brace substring parse with a
`reply` field. -/
def cleanExtract (s : String) : Option Json :=
  match (jsonLoads s).bind replyOf with
  | some r => some r
  | none => ((braceSlice s).bind jsonLoads).bind replyOf

/-- main.py `get_clean_content`: the extracted `reply` field if one is
found, otherwise the raw text unchanged. -/
def get_clean_content (s : String) : Json :=
  match cleanExtract s with
  | some r => r
  | none => .str s

/- The document model. -/

/-- A plan section: display title plus polymorphic content. -/
structure PlanSection where
  title : String
  content : Json

/-- The versioned plan document. -/
structure Plan where
  id : String
  userId : String
  company : String
  goal : String
  title : Option Json
  createdAt : String
  updatedAt : String
  version : Int
  sections : List PlanSection
  history : List Json

/-- `model_dump()` of a section. -/
def sectionDump (s : PlanSection) : Json :=
  .obj [("title", .str s.title), ("content", s.content)]

/-- Modelled from the spec: the field set of the `AccountPlan` pydantic model
(models.py is not among the sources); section 3 of the spec lists identity
(id, owning-user id), descriptive fields (company, goal, optional title),
timestamps, the integer version, the section sequence and the history
sequence. `model_dump()` renders them in that order. -/
def planDumpKVs (p : Plan) : List (String × Json) :=
  [("id", .str p.id), ("userId", .str p.userId), ("company", .str p.company),
   ("goal", .str p.goal), ("title", p.title.getD .null),
   ("createdAt", .str p.createdAt), ("updatedAt", .str p.updatedAt),
   ("version", .num p.version), ("sections", .arr (p.sections.map sectionDump)),
   ("history", .arr p.history)]

/-- nodes.py lines 194-196 and main.py lines 342-345: `model_dump()` with the
`history` field removed. -/
def snapshotOf (p : Plan) : Json :=
  let kvs := planDumpKVs p
  .obj (if objHasKey kvs "history" then objDel kvs "history" else kvs)

/-- Modelled from the spec: `PlanSection(title=..., content=...)` construction
(models.py is not among the sources). Per section 3 a Section's content is
"a string, an ordered list, or a mapping"; validation fails on any other
shape, and the merge engine catches and skips such failures. -/
def mkPlanSection (title : String) (content : Json) : Option PlanSection :=
  match content with
  | .str _ => some ⟨title, content⟩
  | .arr _ => some ⟨title, content⟩
  | .obj _ => some ⟨title, content⟩
  | _ => none

instance : Inhabited Json := ⟨.null⟩

instance : Inhabited PlanSection := ⟨⟨"", .null⟩⟩

/- The document merge engine: nodes.py `apply_plan_update`. -/

/-- An uncaught Python exception escaping `apply_plan_update`. -/
inductive MergeErr where
  | attrGet
  | splitNonStr
  | mergeTarget
  | strConcat
deriving DecidableEq

/-- nodes.py lines 209-212: unwrap `content` when the model double-wrapped it
in a section-like object. -/
def unwrapContent (content : Json) : Json :=
  match content with
  | .obj kvs =>
    if objHasKey kvs "content" && (objHasKey kvs "title" || kvs.length == 1) then
      (objGet kvs "content").getD .null
    else .obj kvs
  | c => c

/-- nodes.py lines 246-255: derive the target key from the path segments;
an empty key is falsy and acts like no key. -/
def rawTargetKey (parts : List String) : Option String :=
  match parts with
  | _ :: p1 :: rest =>
    let potential := pyStrip p1
    let tk :=
      if pyLower potential == "content" && rest.length > 0 then
        pyStrip (rest.headD "")
      else potential
    if tk == "" then none else some (pyTitle (pyReplaceUnd tk))
  | _ => none

/-- nodes.py lines 230-242: does a stored section match the command's
normalized or raw title? -/
def sectionMatch (normalizedTitle rawTitle : String) (s : PlanSection) : Bool :=
  let currentTitle := pyLower (pyStrip s.title)
  let currentNormalized := pyReplaceUnd currentTitle
  currentNormalized == pyLower normalizedTitle || currentTitle == pyLower rawTitle

/-- nodes.py lines 262-270: re-resolve the target key against the existing
mapping content, case- and separator-insensitively. -/
def resolveTargetKey (tk : String) (content : Json) : String :=
  match content with
  | .obj kvs =>
    if objHasKey kvs tk then tk
    else
      let tnorm := pyLower (pyStrip (pyReplaceUnd tk))
      match kvs.find? (fun kv => pyLower (pyStrip (pyReplaceUnd kv.1)) == tnorm) with
      | some kv => kv.1
      | none => tk
  | _ => tk

/-- First index whose element satisfies the predicate (the `for ... break`
search loops of nodes.py lines 229-242 and 382-386). -/
def lFindIdx (p : α → Bool) : List α → Option Nat
  | [] => none
  | a :: l => if p a then some 0 else (lFindIdx p l).map (fun i => i + 1)

/-- Python `mode == "x"`: only string modes compare equal. -/
def modeIs (mode : Json) (s : String) : Bool :=
  match mode with
  | .str m => m == s
  | _ => false

/-- nodes.py lines 315-334: append-mode update of one mapping key. A string
current value concatenated with a non-list non-string raises (`TypeError`). -/
def appendAtKey (c : List (String × Json)) (tk : String) (content : Json) :
    Except MergeErr (List (String × Json)) :=
  match objGet c tk with
  | none => .ok (objSet c tk content)
  | some .null => .ok (objSet c tk content)
  | some (.arr xs) =>
    match content with
    | .arr ys => .ok (objSet c tk (.arr (xs ++ ys)))
    | _ => .ok (objSet c tk (.arr (xs ++ [content])))
  | some (.str sv) =>
    match content with
    | .arr ys => .ok (objSet c tk (.arr (.str sv :: ys)))
    | .str s2 => .ok (objSet c tk (.str (sv ++ "\n" ++ s2)))
    | _ => .error .strConcat
  | some other => .ok (objSet c tk (.arr [other, content]))

/-- nodes.py lines 343-359: whole-section content update for the
replace/append/merge (and unknown) modes. -/
def wholeSectionContent (mode : Json) (old content : Json) : Json :=
  if modeIs mode "replace" then content
  else if modeIs mode "append" then
    match old, content with
    | .str a, .str b => .str (a ++ "\n\n" ++ b)
    | .arr a, .arr b => .arr (a ++ b)
    | .arr a, .str b => .arr (a ++ [.str b])
    | .obj a, .obj b => .obj (objUpdate a b)
    | _, _ => content
  else if modeIs mode "merge" then
    match old, content with
    | .obj a, .obj b => .obj (objUpdate a b)
    | _, _ => content
  else content

/-- nodes.py lines 219-221: the raw section title is the first dot-path
segment, stripped. -/
def cmdRawTitle (sp : String) : String :=
  pyStrip ((pySplitDot sp).headD "")

/-- nodes.py line 222: underscores to spaces, then title case. -/
def cmdNormTitle (sp : String) : String :=
  pyTitle (pyReplaceUnd (cmdRawTitle sp))

/-- nodes.py lines 272-279: delete mode on an existing section; `any_changed`
is set unconditionally, even when the target key is absent or the content is
not a mapping and nothing is removed. -/
def deleteCmd (secs : List PlanSection) (i : Nat) (existing : PlanSection)
    (targetKey : Option String) : List PlanSection × Except MergeErr Bool :=
  match targetKey with
  | some tk =>
    let newSecs :=
      match existing.content with
      | .obj c =>
        if objHasKey c tk then
          secs.set i { existing with content := .obj (objDel c tk) }
        else secs
      | _ => secs
    (newSecs, .ok true)
  | none => (secs.eraseIdx i, .ok true)

/-- nodes.py lines 281-303: move mode on an existing section. A target key
skips the command; a content that `int()` rejects is caught and skipped; the
index is clamped below by 0, and an index at or beyond the post-pop length
appends. -/
def moveCmd (secs : List PlanSection) (i : Nat) (existing : PlanSection)
    (targetKey : Option String) (content : Json) : List PlanSection × Except MergeErr Bool :=
  match targetKey with
  | some _ => (secs, .ok false)
  | none =>
    match pyInt content with
    | none => (secs, .ok false)
    | some n =>
      let newIndex := (max 0 n).toNat
      if i ≠ newIndex then
        let popped := secs.eraseIdx i
        ((if popped.length ≤ newIndex then popped ++ [existing]
          else popped.insertIdx newIndex existing), .ok true)
      else (secs, .ok false)

/-- nodes.py lines 313-340: replace/append/merge (or unknown) mode on a
specific key of mapping content. Merge with mapping content requires the
key's current value to be a mapping, else `KeyError`/`AttributeError`. -/
def updateAtKey (c0 : List (String × Json)) (tk : String) (mode content : Json) :
    Except MergeErr (List (String × Json)) :=
  if modeIs mode "replace" then .ok (objSet c0 tk content)
  else if modeIs mode "append" then appendAtKey c0 tk content
  else if modeIs mode "merge" then
    match content with
    | .obj m =>
      match objGet c0 tk with
      | some (.obj sub) => .ok (objSet c0 tk (.obj (objUpdate sub m)))
      | _ => .error .mergeTarget
    | _ => .ok (objSet c0 tk content)
  else .ok c0

/-- nodes.py lines 366-369: the created section's content wraps under the
target key when one was resolved. -/
def creationContent (targetKey0 : Option String) (content : Json) : Json :=
  match targetKey0 with
  | some tk => .obj [(tk, content)]
  | none => content

/-- nodes.py lines 361-376 continued: delete on a missing section is a no-op,
any other mode creates a new section (construction failures are caught and
skipped). -/
def createCmd (secs : List PlanSection) (normalizedTitle : String)
    (targetKey0 : Option String) (mode content : Json) : List PlanSection × Except MergeErr Bool :=
  if modeIs mode "delete" then (secs, .ok false)
  else
    match mkPlanSection normalizedTitle (creationContent targetKey0 content) with
    | some ns => (secs ++ [ns], .ok true)
    | none => (secs, .ok false)

/-- Process one update command of nodes.py lines 202-378 against the section
list; returns the new sections and either the command's `any_changed`
contribution or an uncaught exception (with the sections as mutated so
far). -/
def stepCmd (secs : List PlanSection) (item : Json) :
    List PlanSection × Except MergeErr Bool :=
  match item with
  | .obj kvs =>
    let sectionPath := objGet kvs "section"
    let content := unwrapContent ((objGet kvs "content").getD .null)
    let mode := (objGet kvs "mode").getD (.str "replace")
    if !optTruthy sectionPath then (secs, .ok false)
    else
      match sectionPath with
      | some (.str sp) =>
        let targetKey0 := rawTargetKey (pySplitDot sp)
        match lFindIdx (sectionMatch (cmdNormTitle sp) (cmdRawTitle sp)) secs with
        | some i =>
          let existing := secs.getD i default
          let targetKey := targetKey0.map (fun tk => resolveTargetKey tk existing.content)
            if modeIs mode "delete" then deleteCmd secs i existing targetKey
            else if modeIs mode "move" then moveCmd secs i existing targetKey content
            else
              match targetKey with
              | some tk =>
                let c0 : List (String × Json) :=
                  match existing.content with
                  | .obj c => c
                  | other => if pyTruthy other then [("General", other)] else []
                match updateAtKey c0 tk mode content with
                | .ok c1 => (secs.set i { existing with content := .obj c1 }, .ok true)
                | .error e => (secs.set i { existing with content := .obj c0 }, .error e)
              | none =>
                (secs.set i { existing with content := wholeSectionContent mode existing.content content }, .ok true)
        | none => createCmd secs (cmdNormTitle sp) targetKey0 mode content
      | _ => (secs, .error .splitNonStr)
  | _ => (secs, .error .attrGet)

/-- The command loop of nodes.py lines 202-378: fold the commands over the
section list, accumulating `any_changed`; an uncaught exception stops the
loop with the sections mutated so far. -/
def applyCommands (secs : List PlanSection) (anyChanged : Bool) :
    List Json → List PlanSection × Except MergeErr Bool
  | [] => (secs, .ok anyChanged)
  | item :: rest =>
    match stepCmd secs item with
    | (secs', .ok b) => applyCommands secs' (anyChanged || b) rest
    | (secs', .error e) => (secs', .error e)

/-- nodes.py line 384: is this the "Research Sources" section? -/
def isRS (s : PlanSection) : Bool :=
  pyLower s.title == "research sources"

/-- nodes.py lines 380-391: move the first "Research Sources" section to the
end when it is not already last. -/
def relocateResearchSources (secs : List PlanSection) : List PlanSection :=
  match lFindIdx isRS secs with
  | none => secs
  | some i =>
    if i + 1 < secs.length then secs.eraseIdx i ++ [secs.getD i default] else secs

/-- nodes.py line 199: a non-list payload is wrapped as a singleton command
list. -/
def toCommandList : Json → List Json
  | .arr xs => xs
  | j => [j]

/-- nodes.py `apply_plan_update` (lines 189-393). A pydantic model instance
is always truthy, so `not plan` on a present plan is `False` and only the
payload's truthiness matters for the early return. The result pairs the
final plan with the returned flag or the escaped exception. -/
def applyPlanUpdate (plan : Plan) (updateData : Json) : Plan × Except MergeErr Bool :=
  if !pyTruthy updateData then (plan, .ok false)
  else
    let res := applyCommands plan.sections false (toCommandList updateData)
    let finalSecs :=
      match res.2 with
      | .ok anyChanged => if anyChanged then relocateResearchSources res.1 else res.1
      | .error _ => res.1
    ({ plan with history := plan.history ++ [snapshotOf plan], sections := finalSecs }, res.2)

/-- main.py `update_plan` endpoint, lines 333-357: append the stored plan's
snapshot to history, carry it onto the incoming plan, and bump the version
when the incoming one does not exceed the stored one (`now` stands for
`datetime.utcnow().isoformat()`). -/
def updatePlan (currentPlan planData : Plan) (now : String) : Plan :=
  let withHistory := { planData with history := currentPlan.history ++ [snapshotOf currentPlan] }
  if withHistory.version ≤ currentPlan.version then
    { withHistory with version := currentPlan.version + 1, updatedAt := now }
  else withHistory

/- The contract-parse/retry skeleton and the action dispatch of
nodes.py `conversation_agent`. -/

/-- Outcome of the completion invocation plus the one-shot retry of
nodes.py lines 457-478: how many completion calls were made, the final raw
content, and the final parse result. -/
structure RetryOutcome where
  llmCalls : Nat
  content : String
  parsed : Option Json

/-- nodes.py lines 457-478: parse the first output; when the parse result is
falsy, re-invoke the completion service once with a correction instruction
and re-parse. `retryResult` is the retried service's raw output, `none`
standing for an invocation that raises (caught, leaving content and parse
result as they were). -/
def parseWithRetry (first : String) (retryResult : Option String) : RetryOutcome :=
  if !optTruthy (parse_json_output first) then
    match retryResult with
    | some second => ⟨2, second, parse_json_output second⟩
    | none => ⟨2, first, parse_json_output first⟩
  else ⟨1, first, parse_json_output first⟩

/-- The reply/control/update fields extracted from one turn's output. -/
structure TurnOut where
  replyText : Json
  action : Json
  researchQuery : Json
  targetSection : Json
  setPlanTitle : Option Json
  newResearchPlan : Option Json
  updateData : Option Json

/-- nodes.py lines 517-559: select the reply text, control fields and update
payload from the parse result. A parsed dict with any protocol key yields
the directive fields (`control.get` on a non-dict `control` value raises,
modelled by `Except.error`); a truthy non-conforming parse triggers the
implicit-update heuristic on the raw content; a falsy parse leaves the raw
content as the reply. -/
def replySelect (content : String) (parsed : Option Json) : Except Unit TurnOut :=
  match parsed with
  | some p =>
    if pyTruthy p then
      match p with
      | .obj kvs =>
        if objHasKey kvs "control" || objHasKey kvs "reply" || objHasKey kvs "update" then
          let control := (objGet kvs "control").getD (.obj [])
          match control with
          | .obj ckvs =>
            .ok { replyText := (objGet kvs "reply").getD (.str "")
                  action := (objGet ckvs "action").getD (.str "NONE")
                  researchQuery := (objGet ckvs "research_query").getD (.str "")
                  targetSection := (objGet ckvs "target_section").getD (.str "")
                  setPlanTitle := objGet ckvs "set_plan_title"
                  newResearchPlan := objGet ckvs "research_plan"
                  updateData := objGet kvs "update" }
          | _ => .error ()
        else implicitUpdate content p true
      | _ => implicitUpdate content p false
    else .ok { replyText := .str content, action := .str "NONE",
               researchQuery := .str "", targetSection := .str "",
               setPlanTitle := none, newResearchPlan := none, updateData := none }
  | none =>
    .ok { replyText := .str content, action := .str "NONE",
          researchQuery := .str "", targetSection := .str "",
          setPlanTitle := none, newResearchPlan := none, updateData := none }
where
  /-- nodes.py lines 535-555: the raw-JSON-after-a-title heuristic. -/
  implicitUpdate (content : String) (p : Json) (isDict : Bool) : Except Unit TurnOut :=
    let startChar := if isDict then lbrace else '['
    let base : TurnOut :=
      { replyText := .str content, action := .str "NONE",
        researchQuery := .str "", targetSection := .str "",
        setPlanTitle := none, newResearchPlan := none, updateData := none }
    match idxOfChar startChar content.toList with
    | some jsonStart =>
      if jsonStart > 0 then
        let potentialTitle := pyStrip (String.mk (content.toList.take jsonStart))
        if potentialTitle != "" && potentialTitle.length < 100 then
          .ok { base with
                replyText := .str ("I\x27ve updated the " ++ potentialTitle ++ " section.")
                updateData := some (.obj [("section", .str potentialTitle),
                                          ("content", p), ("mode", .str "merge")]) }
        else .ok base
      else .ok base
    | none => .ok base

/-- The completion-call count and turn output of the parse/retry path,
taken together. -/
def conversationReply (first : String) (retryResult : Option String) :
    Nat × Except Unit TurnOut :=
  let o := parseWithRetry first retryResult
  (o.llmCalls, replySelect o.content o.parsed)

/- The research orchestration flags: nodes.py lines 586-616. -/

/-- The session flags touched by the action dispatch. -/
structure SessState where
  researchPlan : Option Json
  currentTaskIndex : Nat
  aggregatedFindings : List Json
  researchMode : String
  researchPlanApproved : Bool
  researchNeeded : Bool
  continueAfterPause : Bool
  stepsInCurrentTurn : Nat
  researchQuery : String
  targetSection : String

/-- nodes.py lines 586-616: dispatch on the resolved `action`, updating the
session flags. -/
def handleAction (action : String) (newResearchPlan : Option Json)
    (researchQuery targetSection : String) (st : SessState) : SessState :=
  if action == "PLAN_RESEARCH" then
    let st1 :=
      if optTruthy newResearchPlan then
        { st with researchPlan := newResearchPlan, currentTaskIndex := 0,
                  aggregatedFindings := [], researchMode := "multi",
                  researchPlanApproved := false }
      else st
    { st1 with researchNeeded := false }
  else if action == "EXECUTE_PLAN" then
    if st.stepsInCurrentTurn ≥ 1 then
      { st with researchNeeded := false, continueAfterPause := true,
                researchPlanApproved := true }
    else
      { st with researchNeeded := true, continueAfterPause := false,
                researchMode := "multi", researchPlanApproved := true }
  else if action == "CALL_RESEARCH" then
    { st with researchNeeded := true, researchMode := "single",
              researchQuery := researchQuery, targetSection := targetSection }
  else { st with researchNeeded := false }

/- Helper lemmas about the search and relocation primitives. -/

theorem lFindIdx_none_forall {p : α → Bool} :
    ∀ {l : List α}, lFindIdx p l = none → ∀ x ∈ l, p x = false
  | [], _, x, hx => absurd hx (List.not_mem_nil x)
  | a :: t, h, x, hx => by
    rw [lFindIdx] at h
    by_cases hp : p a = true
    · rw [hp] at h; simp at h
    · have hpa : p a = false := by simpa using hp
      rw [hpa] at h
      simp only [Bool.false_eq_true, if_false, Option.map_eq_none'] at h
      rcases List.mem_cons.mp hx with rfl | hx'
      · exact hpa
      · exact lFindIdx_none_forall h x hx'

theorem lFindIdx_some_getElem {p : α → Bool} :
    ∀ {l : List α} {i : Nat}, lFindIdx p l = some i →
      ∃ x, l[i]? = some x ∧ p x = true
  | [], i, h => by rw [lFindIdx] at h; cases h
  | a :: t, i, h => by
    rw [lFindIdx] at h
    by_cases hp : p a = true
    · rw [hp] at h
      simp only [if_true] at h
      cases h
      exact ⟨a, by simp, hp⟩
    · have hpa : p a = false := by simpa using hp
      rw [hpa] at h
      simp only [Bool.false_eq_true, if_false, Option.map_eq_some'] at h
      rcases h with ⟨j, hj, rfl⟩
      rcases lFindIdx_some_getElem hj with ⟨x, hx, hpx⟩
      exact ⟨x, by simpa using hx, hpx⟩

theorem lFindIdx_some_lt {p : α → Bool} {l : List α} {i : Nat}
    (h : lFindIdx p l = some i) : i < l.length := by
  rcases lFindIdx_some_getElem h with ⟨x, hx, _⟩
  exact (List.getElem?_eq_some.mp hx).1

theorem relocate_any_last {secs : List PlanSection}
    (h : (relocateResearchSources secs).any isRS = true) :
    ∃ x, (relocateResearchSources secs).getLast? = some x ∧ isRS x = true := by
  unfold relocateResearchSources at h ⊢
  cases hf : lFindIdx isRS secs with
  | none =>
    rw [hf] at h
    try dsimp only at h
    rcases List.any_eq_true.mp h with ⟨x, hx, hpx⟩
    rw [lFindIdx_none_forall hf x hx] at hpx
    cases hpx
  | some i =>
    try dsimp only
    rcases lFindIdx_some_getElem hf with ⟨x, hgi, hpx⟩
    have hi : i < secs.length := (List.getElem?_eq_some.mp hgi).1
    have hgd : secs.getD i default = x := by
      rw [List.getD_eq_getElem?_getD, hgi]; rfl
    by_cases hlt : i + 1 < secs.length
    · rw [if_pos hlt, hgd]
      exact ⟨x, List.getLast?_concat _, hpx⟩
    · rw [if_neg hlt]
      have hlast : secs.getLast? = secs[secs.length - 1]? := List.getLast?_eq_getElem? secs
      have hieq : i = secs.length - 1 := by omega
      exact ⟨x, by rw [hlast, ← hieq]; exact hgi, hpx⟩

theorem relocate_head {h : PlanSection} {t : List PlanSection} (hn : isRS h = false) :
    (relocateResearchSources (h :: t)).head? = some h := by
  unfold relocateResearchSources
  rw [lFindIdx, hn]
  simp only [Bool.false_eq_true, if_false]
  cases hf : lFindIdx isRS t with
  | none => simp
  | some j =>
    simp only [Option.map_some']
    try dsimp only
    by_cases hlt : j + 1 + 1 < (h :: t).length
    · rw [if_pos hlt]
      simp [List.eraseIdx_cons_succ, List.cons_append]
    · rw [if_neg hlt]
      simp

theorem deleteCmd_snd (secs : List PlanSection) (i : Nat) (existing : PlanSection)
    (targetKey : Option String) : (deleteCmd secs i existing targetKey).2 = .ok true := by
  unfold deleteCmd
  cases targetKey <;> rfl

theorem moveCmd_ok_false {secs secs' : List PlanSection} {i : Nat} {existing : PlanSection}
    {targetKey : Option String} {content : Json}
    (h : moveCmd secs i existing targetKey content = (secs', .ok false)) : secs' = secs := by
  unfold moveCmd at h
  cases targetKey with
  | some tk => injection h with h1 h2; exact h1.symm
  | none =>
    cases hpi : pyInt content with
    | none => rw [hpi] at h; injection h with h1 h2; exact h1.symm
    | some n =>
      rw [hpi] at h
      try dsimp only at h
      split at h
      · simp at h
      · injection h with h1 h2; exact h1.symm

theorem createCmd_ok_false {secs secs' : List PlanSection} {nt : String}
    {targetKey0 : Option String} {mode content : Json}
    (h : createCmd secs nt targetKey0 mode content = (secs', .ok false)) : secs' = secs := by
  unfold createCmd at h
  split at h
  · injection h with h1 h2; exact h1.symm
  · try dsimp only at h
    split at h
    · simp at h
    · injection h with h1 h2; exact h1.symm

theorem stepCmd_ok_false {secs secs' : List PlanSection} {item : Json}
    (h : stepCmd secs item = (secs', .ok false)) : secs' = secs := by
  unfold stepCmd at h
  cases item with
  | null => simp at h
  | bool b => simp at h
  | num n => simp at h
  | str s => simp at h
  | arr xs => simp at h
  | obj kvs =>
    try dsimp only at h
    split at h
    · injection h with h1 h2; exact h1.symm
    · split at h
      · rename_i sp _
        try dsimp only at h
        split at h
        · rename_i i hfound
          split at h
          · rename_i hdel
            rw [Prod.ext_iff] at h
            have := deleteCmd_snd secs i (secs.getD i default)
              ((rawTargetKey (pySplitDot sp)).map
                (fun tk => resolveTargetKey tk (secs.getD i default).content))
            rw [h.2] at this
            simp at this
          · split at h
            · exact moveCmd_ok_false h
            · split at h
              · split at h
                · simp at h
                · simp at h
              · simp at h
        · exact createCmd_ok_false h
      · simp at h

theorem applyCommands_ok_false :
    ∀ {cmds : List Json} {secs secs' : List PlanSection} {acc : Bool},
      applyCommands secs acc cmds = (secs', .ok false) → secs' = secs ∧ acc = false
  | [], secs, secs', acc, h => by
    unfold applyCommands at h
    injection h with h1 h2
    injection h2 with h3
    exact ⟨h1.symm, h3⟩
  | item :: rest, secs, secs', acc, h => by
    unfold applyCommands at h
    cases hs : stepCmd secs item with
    | mk s' r =>
      rw [hs] at h
      cases r with
      | ok b =>
        try dsimp only at h
        rcases applyCommands_ok_false h with ⟨hsecs, hacc⟩
        rcases Bool.or_eq_false_iff.mp hacc with ⟨hacc1, hb⟩
        subst hb
        exact ⟨hsecs.trans (stepCmd_ok_false hs), hacc1⟩
      | error e =>
        try dsimp only at h
        simp at h

theorem applyCommands_skip {secs : List PlanSection} {item : Json} {acc : Bool}
    {rest : List Json} (hs : stepCmd secs item = (secs, .ok false)) :
    applyCommands secs acc (item :: rest) = applyCommands secs acc rest := by
  conv_lhs => rw [applyCommands]
  rw [hs]
  try dsimp only
  rw [Bool.or_false]

theorem mem_of_getLast? {l : List α} {a : α} (h : l.getLast? = some a) : a ∈ l := by
  cases l with
  | nil => cases h
  | cons b t =>
    rw [List.getLast?_eq_getElem?] at h
    exact List.getElem?_mem h

theorem countP_eq_one_unique {p : α → Bool} :
    ∀ {l : List α}, l.countP p = 1 → ∀ {a b : α}, a ∈ l → b ∈ l →
      p a = true → p b = true → a = b
  | [], h, a, _, ha, _, _, _ => absurd ha (List.not_mem_nil a)
  | x :: t, h, a, b, ha, hb, hpa, hpb => by
    rw [List.countP_cons] at h
    by_cases hx : p x = true
    · rw [hx] at h
      simp only [if_true] at h
      have ht : t.countP p = 0 := by omega
      have hnot : ∀ y ∈ t, ¬ p y = true := by
        intro y hy
        simpa using List.countP_eq_zero.mp ht y hy
      have haa : a = x := by
        rcases List.mem_cons.mp ha with rfl | h'
        · rfl
        · exact absurd hpa (hnot a h')
      have hbb : b = x := by
        rcases List.mem_cons.mp hb with rfl | h'
        · rfl
        · exact absurd hpb (hnot b h')
      rw [haa, hbb]
    · have hxf : p x = false := by simpa using hx
      rw [hxf] at h
      simp only [Bool.false_eq_true, if_false, Nat.add_zero] at h
      have haa : a ∈ t := by
        rcases List.mem_cons.mp ha with rfl | h'
        · rw [hpa] at hxf; cases hxf
        · exact h'
      have hbb : b ∈ t := by
        rcases List.mem_cons.mp hb with rfl | h'
        · rw [hpb] at hxf; cases hxf
        · exact h'
      exact countP_eq_one_unique h haa hbb hpa hpb

/- Concrete fixtures used by the claim theorems. -/

/-- A one-section plan whose section content is a one-key mapping. -/
def planAlpha : Plan :=
  { id := "plan-1", userId := "user-1", company := "", goal := "", title := none,
    createdAt := "t0", updatedAt := "t0", version := 1,
    sections := [⟨"Alpha", .obj [("K", .str "v")]⟩], history := [] }

/-- Delete command for the whole `Alpha` section. -/
def cmdDeleteAlpha : Json := .obj [("section", .str "Alpha"), ("mode", .str "delete")]

/-- Delete command whose target key is absent from the section's mapping. -/
def cmdDeleteAbsent : Json := .obj [("section", .str "Alpha.Zzz"), ("mode", .str "delete")]

/-- C1: the claim says a change-reporting `apply_plan_update` call strictly
increases the plan's version. Counterexample: deleting an existing section
reports a change (`True`) while the version stays at its old value —
`apply_plan_update` never touches `version`. -/
theorem apply_update_reports_change_but_version_fixed :
    (applyPlanUpdate planAlpha cmdDeleteAlpha).2 = .ok true ∧
    (applyPlanUpdate planAlpha cmdDeleteAlpha).1.version = planAlpha.version :=
  ⟨rfl, rfl⟩

/-- C1 (amended): `apply_plan_update` leaves the version field unchanged on
every call, including ones that report a change; the strict version increase
lives in the `update_plan` endpoint, whose committed plan's version always
strictly exceeds the stored plan's version. -/
theorem version_unchanged_by_apply_and_bumped_by_update_plan :
    (∀ (p : Plan) (u : Json), (applyPlanUpdate p u).1.version = p.version) ∧
    (∀ (cur incoming : Plan) (now : String),
      cur.version < (updatePlan cur incoming now).version) := by
  constructor
  · intro p u
    unfold applyPlanUpdate
    split
    · rfl
    · rfl
  · intro cur incoming now
    unfold updatePlan
    try dsimp only
    split
    · try dsimp only
      omega
    · rename_i hgt
      try dsimp only at hgt ⊢
      omega

/-- C3: the claim says the returned flag is `True` iff some section actually
changed, and in particular that a delete with an absent target key must not
report a change. Counterexample: a delete command whose key is absent from
the mapping content returns `True` while leaving the sections unchanged
(nodes.py line 278 sets `any_changed` unconditionally). -/
theorem delete_absent_key_reports_change :
    (applyPlanUpdate planAlpha cmdDeleteAbsent).2 = .ok true ∧
    (applyPlanUpdate planAlpha cmdDeleteAbsent).1.sections = planAlpha.sections :=
  ⟨rfl, rfl⟩

/-- C3 (amended): the backward direction survives: whenever
`apply_plan_update` returns `False`, no section changed; but a `True` return
does not imply a change (see the counterexample). -/
theorem ok_false_implies_sections_unchanged (p : Plan) (u : Json) (p' : Plan)
    (h : applyPlanUpdate p u = (p', .ok false)) : p'.sections = p.sections := by
  unfold applyPlanUpdate at h
  split at h
  · injection h with h1 h2
    rw [← h1]
  · rcases hres : applyCommands p.sections false (toCommandList u) with ⟨s2, r2⟩
    rw [hres] at h
    try dsimp only at h
    cases r2 with
    | ok b =>
      injection h with h1 h2
      injection h2 with h3
      subst h3
      rcases applyCommands_ok_false hres with ⟨hunch, _⟩
      rw [← h1]
      simpa using hunch
    | error e =>
      injection h with h1 h2
      cases h2

/-- C3 (amended) witness at a concrete input: an update whose only command
has an empty section path returns `False` and the sections are unchanged. -/
theorem ok_false_implies_sections_unchanged_witness :
    (applyPlanUpdate planAlpha (Json.obj [("section", Json.str "")])).1.sections
      = planAlpha.sections :=
  ok_false_implies_sections_unchanged planAlpha (Json.obj [("section", Json.str "")])
    (applyPlanUpdate planAlpha (Json.obj [("section", Json.str "")])).1 rfl

/-- C4: the claim says every invocation (even with an empty command list)
appends exactly one history snapshot. Counterexample: an empty command list
is falsy, so nodes.py line 190 returns `False` before the snapshot and the
history stays empty. -/
theorem empty_update_list_appends_no_snapshot :
    applyPlanUpdate planAlpha (Json.arr []) = (planAlpha, .ok false) ∧
    (applyPlanUpdate planAlpha (Json.arr [])).1.history.length = 0 :=
  ⟨rfl, rfl⟩

/-- C4 (amended): for every truthy update payload — a non-empty command list
or a non-empty single command — exactly one snapshot of the pre-mutation
fields (minus `history`) is appended to the history, before any command is
processed and even when no command changes anything. -/
theorem truthy_update_appends_one_snapshot (p : Plan) (u : Json)
    (h : pyTruthy u = true) :
    (applyPlanUpdate p u).1.history = p.history ++ [snapshotOf p] := by
  unfold applyPlanUpdate
  rw [h]
  rfl

/-- C4 (amended) witness: a single command with an empty section path is a
truthy payload that changes nothing, yet the snapshot is appended. -/
theorem truthy_update_appends_one_snapshot_witness :
    pyTruthy (Json.obj [("section", Json.str "")]) = true ∧
    (applyPlanUpdate planAlpha (Json.obj [("section", Json.str "")])).1.history
      = planAlpha.history ++ [snapshotOf planAlpha] :=
  ⟨rfl, truthy_update_appends_one_snapshot planAlpha (Json.obj [("section", Json.str "")]) rfl⟩

/-- A session in single-shot mode, one research step into the current turn. -/
def stSingleMidTurn : SessState :=
  { researchPlan := none, currentTaskIndex := 0, aggregatedFindings := [],
    researchMode := "single", researchPlanApproved := false, researchNeeded := false,
    continueAfterPause := false, stepsInCurrentTurn := 1, researchQuery := "",
    targetSection := "" }

/-- C6 counterexample: an EXECUTE_PLAN action in the pause branch
(`steps_in_current_turn >= 1`) leaves `research_mode` unchanged ("single"
here) — only the zero-steps branch sets it to "multi" — although the
approval flag is set in both branches. -/
theorem execute_plan_pause_branch_keeps_mode :
    (handleAction "EXECUTE_PLAN" none "" "" stSingleMidTurn).researchMode = "single" ∧
    (handleAction "EXECUTE_PLAN" none "" "" stSingleMidTurn).researchPlanApproved = true :=
  ⟨rfl, rfl⟩

/-- C6 (amended): EXECUTE_PLAN always sets `research_plan_approved` to true;
it sets `research_mode` to "multi" only when `steps_in_current_turn` is 0 and
leaves the mode unchanged in the pause branch. -/
theorem execute_plan_sets_approval_and_mode (st : SessState) (nrp : Option Json)
    (rq ts : String) :
    (handleAction "EXECUTE_PLAN" nrp rq ts st).researchPlanApproved = true ∧
    (handleAction "EXECUTE_PLAN" nrp rq ts st).researchMode =
      (if st.stepsInCurrentTurn ≥ 1 then st.researchMode else "multi") := by
  unfold handleAction
  by_cases hs : st.stepsInCurrentTurn ≥ 1 <;> simp [hs]

/-- Message content whose `reply` field is itself a JSON object carrying a
`reply` field. -/
def nestedReplyText : String := "\x7b\"reply\": \"\x7b\\\"reply\\\": \\\"inner\\\"\x7d\"\x7d"

/-- The extracted reply of `nestedReplyText`: still a JSON object with a
`reply` field. -/
def onceExtractedText : String := "\x7b\"reply\": \"inner\"\x7d"

/-- C8 counterexample: `get_clean_content` is not idempotent — on a message
whose `reply` field itself holds a JSON object with a `reply` field, a
second application extracts further. -/
theorem get_clean_content_not_idempotent :
    get_clean_content nestedReplyText = .str onceExtractedText ∧
    get_clean_content onceExtractedText = .str "inner" ∧
    onceExtractedText ≠ "inner" :=
  ⟨rfl, rfl, by decide⟩

/-- C8 (amended): the extraction is idempotent on every input whose output
does not itself extract - whenever the result string yields no further
`reply` field (directly or via the brace substring), a second application
returns it unchanged. -/
theorem get_clean_content_idempotent_when_no_reextract (s r : String)
    (_h : get_clean_content s = .str r) (h2 : cleanExtract r = none) :
    get_clean_content r = .str r := by
  unfold get_clean_content
  rw [h2]

/-- C8 (amended) witness: extracting a simple reply once is stable under a
second application. -/
theorem get_clean_content_idempotent_when_no_reextract_witness :
    get_clean_content "hi" = .str "hi" :=
  get_clean_content_idempotent_when_no_reextract "\x7b\"reply\": \"hi\"\x7d" "hi" rfl rfl

/-- A raw model output on which both parse attempts fail (no closing brace). -/
def malformedFirst : String := "Sorry here is your update: \x7bbad json"

/-- A retried output that is also unparsable. -/
def malformedSecond : String := "still not json"

/-- C5: when both parse attempts fail on the first output, exactly one retry
happens (two completion calls in total), the same parse algorithm runs on
the retried output, and if that also fails the final reply is the second raw
text; the retry path never makes more than two completion calls on any
input. -/
theorem parse_retry_once_and_reply_second_raw (first second : String)
    (h1 : parse_json_output first = none) (h2 : parse_json_output second = none) :
    conversationReply first (some second) =
      (2, .ok { replyText := .str second, action := .str "NONE",
                researchQuery := .str "", targetSection := .str "",
                setPlanTitle := none, newResearchPlan := none, updateData := none }) ∧
    (∀ (f : String) (r : Option String), (parseWithRetry f r).llmCalls ≤ 2) := by
  constructor
  · unfold conversationReply parseWithRetry
    rw [h1]
    try dsimp only
    simp only [optTruthy, Bool.not_false, if_true]
    rw [h2]
    rfl
  · intro f r
    unfold parseWithRetry
    split
    · cases r
      · exact Nat.le_refl 2
      · exact Nat.le_refl 2
    · exact Nat.le_succ 1

/-- C5 witness: the spec's own example text, retried with another malformed
output. -/
theorem parse_retry_once_and_reply_second_raw_witness :
    conversationReply malformedFirst (some malformedSecond) =
      (2, .ok { replyText := .str malformedSecond, action := .str "NONE",
                researchQuery := .str "", targetSection := .str "",
                setPlanTitle := none, newResearchPlan := none, updateData := none }) :=
  (parse_retry_once_and_reply_second_raw malformedFirst malformedSecond rfl rfl).1

theorem stepCmd_skip_empty_path {secs : List PlanSection} {kvs : List (String × Json)}
    (hsec : optTruthy (objGet kvs "section") = false) :
    stepCmd secs (.obj kvs) = (secs, .ok false) := by
  simp only [stepCmd, hsec, Bool.not_false, if_true]

theorem stepCmd_move_uncoercible {secs : List PlanSection} {kvs : List (String × Json)}
    {sp : String} {i : Nat}
    (hsec : objGet kvs "section" = some (Json.str sp)) (hsp : sp ≠ "")
    (hmode : (objGet kvs "mode").getD (.str "replace") = .str "move")
    (hfind : lFindIdx (sectionMatch (cmdNormTitle sp) (cmdRawTitle sp)) secs = some i)
    (htk : rawTargetKey (pySplitDot sp) = none)
    (hint : pyInt (unwrapContent ((objGet kvs "content").getD .null)) = none) :
    stepCmd secs (.obj kvs) = (secs, .ok false) := by
  have hsp' : optTruthy (some (Json.str sp)) = true := by
    simp [optTruthy, pyTruthy, hsp]
  have hd : modeIs (Json.str "move") "delete" = false := rfl
  have hm : modeIs (Json.str "move") "move" = true := rfl
  simp only [stepCmd, hsec, hsp', Bool.not_true, Bool.false_eq_true, if_false, hfind, htk,
    Option.map_none', hmode, hd, hm, if_true, moveCmd, hint]

theorem stepCmd_create_failure {secs : List PlanSection} {kvs : List (String × Json)}
    {sp : String}
    (hsec : objGet kvs "section" = some (Json.str sp)) (hsp : sp ≠ "")
    (hdel : modeIs ((objGet kvs "mode").getD (.str "replace")) "delete" = false)
    (hfind : lFindIdx (sectionMatch (cmdNormTitle sp) (cmdRawTitle sp)) secs = none)
    (hmk : mkPlanSection (cmdNormTitle sp) (creationContent (rawTargetKey (pySplitDot sp))
      (unwrapContent ((objGet kvs "content").getD .null))) = none) :
    stepCmd secs (.obj kvs) = (secs, .ok false) := by
  have hsp' : optTruthy (some (Json.str sp)) = true := by
    simp [optTruthy, pyTruthy, hsp]
  simp only [stepCmd, hsec, hsp', Bool.not_true, Bool.false_eq_true, if_false, hfind,
    createCmd, hdel, hmk]

/-- C10 counterexample: an update command that is the empty object, passed
alone as the whole payload, is falsy — `apply_plan_update` returns `False`
before taking the snapshot, so no history entry is appended although the
command's section path is missing. -/
theorem bare_empty_command_skips_snapshot :
    applyPlanUpdate planAlpha (Json.obj []) = (planAlpha, .ok false) ∧
    (applyPlanUpdate planAlpha (Json.obj [])).1.history.length = 0 :=
  ⟨rfl, rfl⟩

/-- C10 (amended): every update command with a missing or empty (falsy)
section path inside a truthy payload is silently skipped — no section
changes, no change is counted — with the per-invocation snapshot already
appended; only a command that is itself the empty object passed as the whole
payload returns before the snapshot. -/
theorem empty_section_path_skipped_after_snapshot (p : Plan)
    (kvs : List (String × Json)) (hne : kvs ≠ [])
    (hsec : optTruthy (objGet kvs "section") = false) :
    applyPlanUpdate p (Json.obj kvs) =
      ({ p with history := p.history ++ [snapshotOf p] }, .ok false) := by
  have ht : pyTruthy (Json.obj kvs) = true := by
    cases kvs with
    | nil => exact absurd rfl hne
    | cons a t => rfl
  unfold applyPlanUpdate
  rw [ht]
  simp only [Bool.not_true, Bool.false_eq_true, if_false, toCommandList]
  rw [applyCommands, stepCmd_skip_empty_path hsec]
  try dsimp only
  rw [Bool.or_false, applyCommands]
  rfl

/-- C10 (amended) witness: a command carrying only content is skipped while
the snapshot lands in history. -/
theorem empty_section_path_skipped_after_snapshot_witness :
    applyPlanUpdate planAlpha (Json.obj [("content", Json.str "x")]) =
      ({ planAlpha with history := planAlpha.history ++ [snapshotOf planAlpha] }, .ok false) :=
  empty_section_path_skipped_after_snapshot planAlpha _ (List.cons_ne_nil _ _) rfl

/-- Two-command payload whose first command is a merge into an absent key of
the existing `Alpha` section. -/
def cmdMergeAbsent : Json := .obj [("section", .str "Alpha.Missing"),
  ("content", .obj [("a", .str "b")]), ("mode", .str "merge")]

/-- Replace command that would create a `Beta` section. -/
def cmdCreateBeta : Json := .obj [("section", .str "Beta"), ("content", .str "x"),
  ("mode", .str "replace")]

/-- C2 counterexample: a merge command targeting an absent key raises an
uncaught `KeyError` (`existing.content[target_key].update(...)`), which
aborts the whole call — the following command, which alone would have created
a `Beta` section, is never applied. -/
theorem merge_missing_key_aborts_remaining_commands :
    (applyPlanUpdate planAlpha (Json.arr [cmdMergeAbsent, cmdCreateBeta])).2
      = .error .mergeTarget ∧
    (applyPlanUpdate planAlpha (Json.arr [cmdMergeAbsent, cmdCreateBeta])).1.sections.length = 1 ∧
    (applyPlanUpdate planAlpha (Json.arr [cmdCreateBeta])).1.sections.length = 2 :=
  ⟨rfl, rfl, rfl⟩

/-- C2 (amended): the two failure kinds the code guards with try/except are
caught and skipped with every remaining command still applied — a move
command whose content `int()` rejects, and a section creation that raises —
but a merge command on an absent or non-mapping sub-key raises an uncaught
error that aborts the remaining commands and the whole call (see the
counterexample). -/
theorem caught_failures_skip_and_continue :
    (∀ (secs : List PlanSection) (acc : Bool) (rest : List Json)
       (kvs : List (String × Json)) (sp : String) (i : Nat),
      objGet kvs "section" = some (Json.str sp) → sp ≠ "" →
      (objGet kvs "mode").getD (.str "replace") = .str "move" →
      lFindIdx (sectionMatch (cmdNormTitle sp) (cmdRawTitle sp)) secs = some i →
      rawTargetKey (pySplitDot sp) = none →
      pyInt (unwrapContent ((objGet kvs "content").getD .null)) = none →
      applyCommands secs acc (Json.obj kvs :: rest) = applyCommands secs acc rest) ∧
    (∀ (secs : List PlanSection) (acc : Bool) (rest : List Json)
       (kvs : List (String × Json)) (sp : String),
      objGet kvs "section" = some (Json.str sp) → sp ≠ "" →
      modeIs ((objGet kvs "mode").getD (.str "replace")) "delete" = false →
      lFindIdx (sectionMatch (cmdNormTitle sp) (cmdRawTitle sp)) secs = none →
      mkPlanSection (cmdNormTitle sp) (creationContent (rawTargetKey (pySplitDot sp))
        (unwrapContent ((objGet kvs "content").getD .null))) = none →
      applyCommands secs acc (Json.obj kvs :: rest) = applyCommands secs acc rest) := by
  constructor
  · intro secs acc rest kvs sp i hsec hsp hmode hfind htk hint
    exact applyCommands_skip (stepCmd_move_uncoercible hsec hsp hmode hfind htk hint)
  · intro secs acc rest kvs sp hsec hsp hdel hfind hmk
    exact applyCommands_skip (stepCmd_create_failure hsec hsp hdel hfind hmk)

/-- C2 (amended) witness: an uncoercible move index is skipped with the rest
still applied, and a failing section construction is skipped. -/
theorem caught_failures_skip_and_continue_witness :
    applyCommands [⟨"Alpha", Json.str "a"⟩] false
        [Json.obj [("section", Json.str "Alpha"), ("content", Json.str "notanint"),
                   ("mode", Json.str "move")],
         Json.obj [("section", Json.str "Alpha"), ("content", Json.str "b"),
                   ("mode", Json.str "replace")]] =
      applyCommands [⟨"Alpha", Json.str "a"⟩] false
        [Json.obj [("section", Json.str "Alpha"), ("content", Json.str "b"),
                   ("mode", Json.str "replace")]] ∧
    applyCommands ([] : List PlanSection) true
        [Json.obj [("section", Json.str "Newsec"), ("content", Json.num 5)]] =
      applyCommands ([] : List PlanSection) true [] :=
  ⟨caught_failures_skip_and_continue.1 _ _ _ _ "Alpha" 0 rfl (by decide) rfl rfl rfl rfl,
   caught_failures_skip_and_continue.2 _ _ _ _ "Newsec" rfl (by decide) rfl rfl rfl⟩

/-- A plan whose "Research Sources" section sits first. -/
def planRSFirst : Plan :=
  { id := "plan-2", userId := "user-1", company := "", goal := "", title := none,
    createdAt := "t0", updatedAt := "t0", version := 1,
    sections := [⟨"Research Sources", .arr []⟩, ⟨"Alpha", .str "a"⟩], history := [] }

/-- Replace command for the `Alpha` section. -/
def cmdReplaceAlphaNew : Json := .obj [("section", .str "Alpha"),
  ("content", .str "new"), ("mode", .str "replace")]

/-- C7: after any `apply_plan_update` call that returns normally reporting a
change, if the resulting plan holds a (unique) section titled
case-insensitively "Research Sources", that section is the last element of
the section sequence. -/
theorem research_sources_last_after_change (p : Plan) (u : Json) (p' : Plan) (k : Nat)
    (s : PlanSection) (h : applyPlanUpdate p u = (p', .ok true))
    (hk : p'.sections[k]? = some s) (hs : isRS s = true)
    (huniq : p'.sections.countP isRS = 1) :
    p'.sections.getLast? = some s := by
  unfold applyPlanUpdate at h
  split at h
  · simp at h
  · rcases hres : applyCommands p.sections false (toCommandList u) with ⟨s2, r2⟩
    rw [hres] at h
    try dsimp only at h
    cases r2 with
    | ok b =>
      injection h with h1 h2
      injection h2 with h3
      subst h3
      have hsecs : p'.sections = relocateResearchSources s2 := by
        rw [← h1]
        rfl
      have hmem : s ∈ p'.sections := List.getElem?_mem hk
      have hany : (relocateResearchSources s2).any isRS = true := by
        rw [← hsecs]
        exact List.any_eq_true.mpr ⟨s, hmem, hs⟩
      rcases relocate_any_last hany with ⟨x, hlast, hxrs⟩
      rw [← hsecs] at hlast
      have hxmem : x ∈ p'.sections := mem_of_getLast? hlast
      have hxs : x = s := countP_eq_one_unique huniq hxmem hmem hxrs hs
      rw [← hxs]
      exact hlast
    | error e =>
      injection h with h1 h2
      cases h2

/-- C7 witness: replacing `Alpha` in a plan whose research-sources section
sits first reports a change and relocates that section to the end. -/
theorem research_sources_last_after_change_witness :
    (applyPlanUpdate planRSFirst cmdReplaceAlphaNew).1.sections.getLast?
      = some ⟨"Research Sources", .arr []⟩ :=
  research_sources_last_after_change planRSFirst cmdReplaceAlphaNew
    (applyPlanUpdate planRSFirst cmdReplaceAlphaNew).1 1 ⟨"Research Sources", .arr []⟩
    rfl rfl rfl rfl

theorem stepCmd_move_zero {secs : List PlanSection} {kvs : List (String × Json)}
    {sp : String} {i : Nat} {n : Int}
    (hsec : objGet kvs "section" = some (Json.str sp)) (hsp : sp ≠ "")
    (hmode : (objGet kvs "mode").getD (.str "replace") = .str "move")
    (hfind : lFindIdx (sectionMatch (cmdNormTitle sp) (cmdRawTitle sp)) secs = some i)
    (htk : rawTargetKey (pySplitDot sp) = none)
    (hint : pyInt (unwrapContent ((objGet kvs "content").getD .null)) = some n)
    (hneg : n < 0) (hi : i = 0) :
    stepCmd secs (.obj kvs) = (secs, .ok false) := by
  have hsp' : optTruthy (some (Json.str sp)) = true := by
    simp [optTruthy, pyTruthy, hsp]
  have hd : modeIs (Json.str "move") "delete" = false := rfl
  have hm : modeIs (Json.str "move") "move" = true := rfl
  have h0 : (max 0 n).toNat = 0 := by omega
  subst hi
  simp only [stepCmd, hsec, hsp', Bool.not_true, Bool.false_eq_true, if_false, hfind, htk,
    Option.map_none', hmode, hd, hm, if_true, moveCmd, hint, h0]
  rw [if_neg (fun hc => hc rfl)]

theorem stepCmd_move_negative {secs : List PlanSection} {kvs : List (String × Json)}
    {sp : String} {i : Nat} {n : Int}
    (hsec : objGet kvs "section" = some (Json.str sp)) (hsp : sp ≠ "")
    (hmode : (objGet kvs "mode").getD (.str "replace") = .str "move")
    (hfind : lFindIdx (sectionMatch (cmdNormTitle sp) (cmdRawTitle sp)) secs = some i)
    (htk : rawTargetKey (pySplitDot sp) = none)
    (hint : pyInt (unwrapContent ((objGet kvs "content").getD .null)) = some n)
    (hneg : n < 0) (hi : i ≠ 0) :
    stepCmd secs (.obj kvs) = (secs.getD i default :: secs.eraseIdx i, .ok true) := by
  have hsp' : optTruthy (some (Json.str sp)) = true := by
    simp [optTruthy, pyTruthy, hsp]
  have hd : modeIs (Json.str "move") "delete" = false := rfl
  have hm : modeIs (Json.str "move") "move" = true := rfl
  have hilt : i < secs.length := lFindIdx_some_lt hfind
  have h0 : (max 0 n).toNat = 0 := by omega
  have hlen : ¬ ((secs.eraseIdx i).length ≤ 0) := by
    rw [List.length_eraseIdx]
    simp only [hilt, if_true]
    omega
  simp only [stepCmd, hsec, hsp', Bool.not_true, Bool.false_eq_true, if_false, hfind, htk,
    Option.map_none', hmode, hd, hm, if_true, moveCmd, hint, h0]
  rw [if_pos hi, if_neg hlen]
  rfl

/-- A plan with `Alpha` in second position behind `Beta`. -/
def planBetaAlpha : Plan :=
  { id := "plan-3", userId := "user-1", company := "", goal := "", title := none,
    createdAt := "t0", updatedAt := "t0", version := 1,
    sections := [⟨"Beta", .str "b"⟩, ⟨"Alpha", .str "a"⟩], history := [] }

/-- A plan with `Alpha` first and "Research Sources" second. -/
def planAlphaRS : Plan :=
  { id := "plan-4", userId := "user-1", company := "", goal := "", title := none,
    createdAt := "t0", updatedAt := "t0", version := 1,
    sections := [⟨"Alpha", .str "a"⟩, ⟨"Research Sources", .arr []⟩], history := [] }

/-- Move command with index -1 targeting the research-sources section. -/
def cmdMoveRSNeg : Json := .obj [("section", .str "Research Sources"),
  ("content", .num (-1)), ("mode", .str "move")]

/-- C9 counterexample: moving the "Research Sources" section itself to a
negative index is accepted and clamps to 0, but the end-of-call relocation
pass immediately moves that section back to the end — after the call it is
last, not first. -/
theorem move_negative_research_sources_not_first :
    (applyPlanUpdate planAlphaRS cmdMoveRSNeg).2 = .ok true ∧
    (applyPlanUpdate planAlphaRS cmdMoveRSNeg).1.sections.head? = some ⟨"Alpha", .str "a"⟩ ∧
    (applyPlanUpdate planAlphaRS cmdMoveRSNeg).1.sections.getLast?
      = some ⟨"Research Sources", .arr []⟩ :=
  ⟨rfl, rfl, rfl⟩

/-- C9 (amended): a single move command (with no sub-key in its path) on an
existing section whose content coerces to a negative integer is not
rejected: the index clamps to 0 and the section ends up first — provided the
moved section is not itself titled "research sources", in which case the
relocation pass sends it to the end instead (see the counterexample). -/
theorem move_negative_clamps_to_first (p : Plan) (kvs : List (String × Json))
    (sp : String) (i : Nat) (n : Int)
    (hsec : objGet kvs "section" = some (Json.str sp)) (hsp : sp ≠ "")
    (hmode : (objGet kvs "mode").getD (.str "replace") = .str "move")
    (hfind : lFindIdx (sectionMatch (cmdNormTitle sp) (cmdRawTitle sp)) p.sections = some i)
    (htk : rawTargetKey (pySplitDot sp) = none)
    (hint : pyInt (unwrapContent ((objGet kvs "content").getD .null)) = some n)
    (hneg : n < 0)
    (hrs : isRS (p.sections.getD i default) = false) :
    (applyPlanUpdate p (Json.obj kvs)).1.sections.head?
      = some (p.sections.getD i default) := by
  have hne : kvs ≠ [] := by
    intro hcon
    rw [hcon] at hsec
    cases hsec
  have ht : pyTruthy (Json.obj kvs) = true := by
    cases kvs with
    | nil => exact absurd rfl hne
    | cons a t => rfl
  unfold applyPlanUpdate
  rw [ht]
  simp only [Bool.not_true, Bool.false_eq_true, if_false, toCommandList]
  by_cases hi : i = 0
  · rw [applyCommands, stepCmd_move_zero hsec hsp hmode hfind htk hint hneg hi]
    try dsimp only
    rw [Bool.or_false, applyCommands]
    try dsimp only
    rcases lFindIdx_some_getElem hfind with ⟨x, hx, _⟩
    have hgd : p.sections.getD i default = x := by
      rw [List.getD_eq_getElem?_getD, hx]
      rfl
    rw [hgd]
    show p.sections.head? = some x
    rw [List.head?_eq_getElem?, ← hi]
    exact hx
  · rw [applyCommands, stepCmd_move_negative hsec hsp hmode hfind htk hint hneg hi]
    try dsimp only
    rw [applyCommands]
    try dsimp only
    show (relocateResearchSources
        (p.sections.getD i default :: p.sections.eraseIdx i)).head?
      = some (p.sections.getD i default)
    exact relocate_head hrs

/-- C9 (amended) witness: moving `Alpha` from position 1 to index -5 places
it first. -/
theorem move_negative_clamps_to_first_witness :
    (applyPlanUpdate planBetaAlpha (Json.obj [("section", Json.str "Alpha"),
        ("content", Json.str "-5"), ("mode", Json.str "move")])).1.sections.head?
      = some ⟨"Alpha", Json.str "a"⟩ :=
  move_negative_clamps_to_first planBetaAlpha _ "Alpha" 1 (-5)
    rfl (by decide) rfl rfl rfl rfl (by decide) rfl
